import Mathlib

/-!
Verification of the Join Queue Engine of the whatsapp-companion-bot repository
(`src/groupJoiner.js`). The JavaScript class `GroupJoiner` is shallowly embedded:
its mutable fields become a `JoinerState` record, the methods become pure state
transformers, timestamps (ISO strings in the source) are modelled as naturals
(milliseconds), the JavaScript `Map`/`Set` collections are modelled as
insertion-ordered association lists, and the external WhatsApp socket is
modelled by an explicit `ConnectorOutcome` parameter describing what
`sock.groupAcceptInvite` would do on the attempt.
-/

namespace GroupJoiner

/-! ## Character and list-of-character helpers

The source manipulates links with JavaScript string/regex primitives.  We model
strings by their character lists (`String.data`) and implement the needed
primitives structurally so that every definition evaluates inside the kernel.
-/

/-- ASCII lower-casing of a single character, as used by `toLowerCase()` and by
case-insensitive (`/i`) regex matching on the ASCII links handled here. -/
def lowerChar (c : Char) : Char :=
  if 'A' ≤ c ∧ c ≤ 'Z' then Char.ofNat (c.toNat + 32) else c

/-- `[A-Za-z0-9]` character class of the source's regexes. -/
def isAlnumChar (c : Char) : Bool :=
  ('A' ≤ c ∧ c ≤ 'Z') || ('a' ≤ c ∧ c ≤ 'z') || ('0' ≤ c ∧ c ≤ '9')

/-- `[A-Za-z0-9_-]` character class of the source's second link pattern. -/
def isCodeClassChar (c : Char) : Bool :=
  isAlnumChar c || c = '_' || c = '-'

/-- Case-sensitive "the first list starts the second" test. -/
def listStartsWith : List Char → List Char → Bool
  | [], _ => true
  | _ :: _, [] => false
  | p :: ps, c :: cs => p = c && listStartsWith ps cs

/-- Substring containment on character lists (JavaScript `String.includes`). -/
def listContainsSub (pat : List Char) : List Char → Bool
  | [] => pat.isEmpty
  | c :: rest => listStartsWith pat (c :: rest) || listContainsSub pat rest

/-! ## Regex matcher

The three link patterns of `isValidWhatsAppGroupLink` are compiled by hand into
a continuation-passing matcher: a matcher consumes some characters and calls the
continuation on the remainder; alternation and option (`?`) try both branches,
which gives exact backtracking semantics for these patterns. -/

/-- A matcher: input characters and a continuation on the unconsumed rest. -/
abbrev ReM := List Char → (List Char → Bool) → Bool

/-- Match a literal case-insensitively (the source patterns carry the `i` flag). -/
def matchLitAux : List Char → List Char → (List Char → Bool) → Bool
  | [], s, k => k s
  | _ :: _, [], _ => false
  | p :: ps, c :: cs, k =>
    if lowerChar p = lowerChar c then matchLitAux ps cs k else false

/-- Literal matcher. -/
def reLit (l : String) : ReM := fun s k => matchLitAux l.data s k

/-- Exactly `n` characters of a character class (regex `{n}` repetition). -/
def matchClassAux (p : Char → Bool) : Nat → List Char → (List Char → Bool) → Bool
  | 0, s, k => k s
  | _ + 1, [], _ => false
  | n + 1, c :: cs, k => if p c then matchClassAux p n cs k else false

/-- Character-class matcher. -/
def reClass (p : Char → Bool) (n : Nat) : ReM := fun s k => matchClassAux p n s k

/-- Sequencing of matchers. -/
def reSeq (a b : ReM) : ReM := fun s k => a s (fun s2 => b s2 k)

/-- Ordered alternation with backtracking. -/
def reAlt (a b : ReM) : ReM := fun s k => a s k || b s k

/-- Regex `?`: try to consume, fall back to consuming nothing. -/
def reOpt (a : ReM) : ReM := fun s k => a s k || k s

/-- Unanchored `RegExp.test`: try to match at every position. -/
def reTest (m : ReM) : List Char → Bool
  | [] => m [] (fun _ => true)
  | c :: rest => m (c :: rest) (fun _ => true) || reTest m rest

/-- Source pattern `https?:\/\/(chat\.whatsapp\.com|whatsapp\.com)\/(invite\/)?[A-Za-z0-9]{22}`. -/
def linkPattern1 : ReM :=
  reSeq (reLit "http") (reSeq (reOpt (reLit "s")) (reSeq (reLit "://")
    (reSeq (reAlt (reLit "chat.whatsapp.com") (reLit "whatsapp.com"))
      (reSeq (reLit "/") (reSeq (reOpt (reLit "invite/")) (reClass isAlnumChar 22))))))

/-- Source pattern `https?:\/\/chat\.whatsapp\.com\/[A-Za-z0-9_-]{22}`. -/
def linkPattern2 : ReM :=
  reSeq (reLit "http") (reSeq (reOpt (reLit "s")) (reSeq (reLit "://")
    (reSeq (reLit "chat.whatsapp.com/") (reClass isCodeClassChar 22))))

/-- Source pattern `whatsapp:\/\/chat\?code=[A-Za-z0-9]{22}`. -/
def linkPattern3 : ReM :=
  reSeq (reLit "whatsapp://chat?code=") (reClass isAlnumChar 22)

/-- `isValidWhatsAppGroupLink(link)`: some of the three patterns matches. -/
def isValidWhatsAppGroupLink (link : String) : Bool :=
  reTest linkPattern1 link.data || reTest linkPattern2 link.data ||
    reTest linkPattern3 link.data

/-! ## URL model

`extractInviteCode` and `normalizeLink` go through the WHATWG `URL` class. We
model the small slice the joiner exercises: a `scheme://authority/path?query`
split, where parsing fails (the constructor would throw) when the `://`
separator or a well-formed scheme is missing.  Host canonicalization and
percent-encoding are not modelled; the joiner's links never need them. -/

/-- Split a character list at the first occurrence of `://`, returning the
scheme characters and the remainder. -/
def splitSchemeRest : List Char → Option (List Char × List Char)
  | [] => none
  | c :: rest =>
    if listStartsWith "://".data (c :: rest) then some ([], (c :: rest).drop 3)
    else
      match splitSchemeRest rest with
      | some (sch, r) => some (c :: sch, r)
      | none => none

/-- First character a URL scheme may have. -/
def isSchemeHeadChar (c : Char) : Bool :=
  ('A' ≤ c ∧ c ≤ 'Z') || ('a' ≤ c ∧ c ≤ 'z')

/-- Subsequent characters a URL scheme may have. -/
def isSchemeTailChar (c : Char) : Bool :=
  isSchemeHeadChar c || ('0' ≤ c ∧ c ≤ '9') || c = '+' || c = '-' || c = '.'

/-- Well-formedness of a scheme, deciding whether `new URL` succeeds. -/
def validScheme : List Char → Bool
  | [] => false
  | c :: rest => isSchemeHeadChar c && rest.all isSchemeTailChar

/-- Schemes the WHATWG standard treats as special (their empty path serializes
as `/`). -/
def specialScheme (sch : List Char) : Bool :=
  ["http", "https", "ws", "wss", "ftp", "file"].any
    (fun t => sch.map lowerChar = t.data)

/-- Model of `new URL(link).pathname`: `none` when the constructor throws. -/
def urlPathname (link : String) : Option String :=
  match splitSchemeRest link.data with
  | none => none
  | some (sch, rest) =>
    if validScheme sch then
      let afterAuth := rest.dropWhile (fun c => !(c = '/' || c = '?' || c = '#'))
      match afterAuth with
      | '/' :: _ =>
        some (String.mk (afterAuth.takeWhile (fun c => !(c = '?' || c = '#'))))
      | _ => some (if specialScheme sch then "/" else "")
    else none

/-- JavaScript `String.split('/')` on character lists. -/
def splitOnSlash : List Char → List String
  | [] => [""]
  | c :: rest =>
    if c = '/' then "" :: splitOnSlash rest
    else
      match splitOnSlash rest with
      | [] => [String.mk [c]]
      | s :: ss => String.mk (c :: s.data) :: ss

/-- The regex `^[A-Za-z0-9]+$` of `extractInviteCode`. -/
def fullAlnum (l : List Char) : Bool :=
  !l.isEmpty && l.all isAlnumChar

/-- The `for` loop of `extractInviteCode`: first path segment of length at
least 22 that is fully alphanumeric. -/
def findInvitePart : List String → Option String
  | [] => none
  | p :: rest =>
    if 22 ≤ p.length && fullAlnum p.data then some p else findInvitePart rest

/-- `extractInviteCode(link)`: split the URL path on `/` and scan for the code;
`none` on parse failure (the source catches the `URL` exception). -/
def extractInviteCode (link : String) : Option String :=
  match urlPathname link with
  | none => none
  | some path => findInvitePart (splitOnSlash path.data)

/-- `extractGroupName(link)`: derived display label. -/
def extractGroupName (link : String) : String :=
  match extractInviteCode link with
  | some code => "Group_" ++ String.mk (code.data.take 8)
  | none => "WhatsApp Group"

/-! ## Link normalization -/

/-- Split a character list at the first occurrence of a separator character. -/
def splitAtFirst (sep : Char) : List Char → Option (List Char × List Char)
  | [] => none
  | c :: rest =>
    if c = sep then some ([], rest)
    else
      match splitAtFirst sep rest with
      | some (a, b) => some (c :: a, b)
      | none => none

/-- Split a query string on `&` into raw parameters. -/
def splitAmp : List Char → List (List Char)
  | [] => [[]]
  | c :: rest =>
    if c = '&' then [] :: splitAmp rest
    else
      match splitAmp rest with
      | [] => [[c]]
      | p :: ps => (c :: p) :: ps

/-- Re-join parameters with `&`. -/
def joinAmp : List (List Char) → List Char
  | [] => []
  | [p] => p
  | p :: ps => p ++ '&' :: joinAmp ps

/-- Name of a `name=value` query parameter. -/
def paramName (p : List Char) : List Char := p.takeWhile (fun c => !(c = '='))

/-- The fixed tracking-parameter denylist of `normalizeLink`. -/
def trackingParams : List String :=
  ["utm_source", "utm_medium", "utm_campaign", "fbclid", "gclid"]

/-- `normalizeLink(link)`: force `https scheme for `http://` links and drop the
denylisted query parameters.  The `URL` round-trip is modelled as this textual
rewrite; class canonicalizations the joiner's links never trigger (host casing,
percent-encoding, fragment handling) are not modelled. -/
def normalizeLink (link : String) : String :=
  let l :=
    if listStartsWith "http://".data link.data then
      String.mk ("https://".data ++ link.data.drop 7)
    else link
  match splitAtFirst '?' l.data with
  | none => l
  | some (base, query) =>
    let kept := (splitAmp query).filter
      (fun p => !(trackingParams.any (fun t => t.data = paramName p)))
    if kept.isEmpty then String.mk base
    else String.mk (base ++ '?' :: joinAmp kept)

/-! ## Error classification -/

/-- The fixed keyword list of `isRecoverableError`. -/
def recoverableKeywords : List String :=
  ["timeout", "network", "temporarily", "rate limit", "too many requests",
   "connection", "server"]

/-- `isRecoverableError(error)`: some keyword occurs in the lower-cased
message. -/
def isRecoverableMsg (msg : String) : Bool :=
  recoverableKeywords.any (fun k => listContainsSub k.data (msg.data.map lowerChar))

/-! ## Collections

`joinedGroups` is a JavaScript `Set` of link strings, `pendingGroups` and
`failedGroups` are `Map`s keyed by link.  Both preserve insertion order and we
model them as lists (of strings, resp. of key-value pairs). -/

section Collections

variable {β : Type}

/-- `Map.has`. -/
def mapHas (m : List (String × β)) (k : String) : Bool :=
  m.any (fun e => e.1 = k)

/-- `Map.get`. -/
def mapGet (m : List (String × β)) (k : String) : Option β :=
  (m.find? (fun e => e.1 = k)).map Prod.snd

/-- `Map.set`: update in place when the key exists, append otherwise. -/
def mapSet (m : List (String × β)) (k : String) (v : β) : List (String × β) :=
  if mapHas m k then m.map (fun e => if e.1 = k then (k, v) else e)
  else m ++ [(k, v)]

/-- `Map.delete`. -/
def mapDelete (m : List (String × β)) (k : String) : List (String × β) :=
  m.filter (fun e => !(e.1 = k))

end Collections

/-- `Set.has`. -/
def setHas (s : List String) (x : String) : Bool :=
  s.any (fun y => y = x)

/-- `Set.add`. -/
def setAdd (s : List String) (x : String) : List String :=
  if setHas s x then s else s ++ [x]

/-! ## Data model -/

/-- One invite link's lifecycle record (the object built by `processLinks` and
mutated by the handlers). -/
structure GroupEntry where
  link : String
  name : String := ""
  status : String := "queued"
  attempts : Nat := 0
  addedAt : Nat := 0
  joinedAt : Option Nat := none
  pendingSince : Option Nat := none
  failedAt : Option Nat := none
  expiredAt : Option Nat := none
  cancelledAt : Option Nat := none
  error : Option String := none
  groupId : Option String := none
  info : Option String := none
  pendingMessage : Option String := none
deriving DecidableEq, Repr

/-- The `this.stats` record. -/
structure RunStats where
  totalAttempted : Nat := 0
  successful : Nat := 0
  failed : Nat := 0
  pending : Nat := 0
  expired : Nat := 0
  startTime : Option Nat := none
  endTime : Option Nat := none
  lastJoin : Option Nat := none
deriving DecidableEq, Repr

/-- The `this.config` record (timing fields in milliseconds, as in source). -/
structure JoinerConfig where
  joinInterval : Nat := 120000
  maxRetries : Nat := 3
  autoCancelAfter : Nat := 24 * 60 * 60 * 1000
  checkPendingInterval : Nat := 30 * 60 * 1000
deriving DecidableEq, Repr

/-- The mutable fields of the `GroupJoiner` instance. -/
structure JoinerState where
  isActive : Bool := false
  joinQueue : List GroupEntry := []
  joinedGroups : List String := []
  pendingGroups : List (String × GroupEntry) := []
  failedGroups : List (String × GroupEntry) := []
  stats : RunStats := {}
  config : JoinerConfig := {}
deriving DecidableEq, Repr

/-- What the external `sock.groupAcceptInvite` call would do on one attempt. -/
inductive ConnectorOutcome where
  /-- Returns a result with a truthy `id` (plus the metadata fetched after). -/
  | ok (gid : String) (info : String)
  /-- Returns a falsy result / a result without an `id`. -/
  | noId
  /-- Throws with the given message. -/
  | threw (msg : String)
deriving DecidableEq, Repr

/-- The value `joinGroup` resolves with. -/
inductive JoinResult where
  | success (gid : String) (info : String)
  | pendingApproval (msg : String)
  | failure (msg : String)
deriving DecidableEq, Repr

/-! ## Operations of the Join Queue Engine -/

/-- `joinGroup(group, sock)`: extract the invite code (error result when it is
missing — the `throw` is caught by the method's own `catch`), then consult the
connector; a thrown connector error is likewise converted into an error
result. -/
def joinGroup (g : GroupEntry) (conn : ConnectorOutcome) : JoinResult :=
  match extractInviteCode g.link with
  | none => .failure "Invalid group link format"
  | some _ =>
    match conn with
    | .ok gid info => .success gid info
    | .noId => .pendingApproval "Waiting for admin approval"
    | .threw msg => .failure msg

/-- `handleJoinSuccess`: count, record in the joined set, drop any pending
record for the link. -/
def handleJoinSuccess (now : Nat) (g : GroupEntry) (gid info : String)
    (s : JoinerState) : JoinerState :=
  let _g := {g with joinedAt := some now, groupId := some gid, info := some info}
  { s with
    stats := {s.stats with successful := s.stats.successful + 1},
    joinedGroups := setAdd s.joinedGroups g.link,
    pendingGroups := mapDelete s.pendingGroups g.link }

/-- The entry as `checkPendingGroups` rewrites it on expiry. -/
def expiredEntry (now : Nat) (g : GroupEntry) : GroupEntry :=
  {g with expiredAt := some now, status := "expired",
          error := some "Join request expired after 24 hours"}

/-- `handleJoinFailure`: a pending result goes to the pending map with
`pendingSince` stamped; an error result goes to the failed map with the error
recorded and `attempts` incremented. -/
def handleJoinFailure (now : Nat) (g : GroupEntry) (r : JoinResult)
    (s : JoinerState) : JoinerState :=
  match r with
  | .pendingApproval msg =>
    let g := {g with pendingSince := some now, pendingMessage := some msg}
    { s with
      stats := {s.stats with pending := s.stats.pending + 1},
      pendingGroups := mapSet s.pendingGroups g.link g }
  | .failure msg =>
    let g := {g with failedAt := some now, error := some msg,
                     attempts := g.attempts + 1}
    { s with
      stats := {s.stats with failed := s.stats.failed + 1},
      failedGroups := mapSet s.failedGroups g.link g }
  | .success _ _ => s

/-- The per-attempt bookkeeping at the bottom of the loop body
(`totalAttempted++`, `lastJoin = new Date()`). -/
def bumpAttempt (now : Nat) (s : JoinerState) : JoinerState :=
  { s with stats := {s.stats with totalAttempted := s.stats.totalAttempted + 1,
                                  lastJoin := some now} }

/-- One non-throwing iteration of `joinLoop`: pop the head, short-circuit if
already joined (`continue` skips the attempt bookkeeping), otherwise attempt
the join and dispatch on the result. -/
def joinLoopStep (now : Nat) (conn : ConnectorOutcome) (s : JoinerState) :
    JoinerState :=
  if s.isActive then
    match s.joinQueue with
    | [] => s
    | g :: rest =>
      let s1 : JoinerState := {s with joinQueue := rest}
      if setHas s1.joinedGroups g.link then
        {s1 with stats := {s1.stats with successful := s1.stats.successful + 1}}
      else
        match joinGroup g conn with
        | .success gid info => bumpAttempt now (handleJoinSuccess now g gid info s1)
        | r => bumpAttempt now (handleJoinFailure now g r s1)
  else s

/-- The `catch` block of the loop body (reached only when something inside the
iteration throws past `joinGroup`'s own handler): `failed` is counted, and the
entry is re-queued at the tail with `attempts` incremented when the error is
recoverable and the budget is not exhausted — otherwise it is dropped.  `s` is
the state after the head was shifted off. -/
def joinLoopCatchStep (g : GroupEntry) (msg : String) (s : JoinerState) :
    JoinerState :=
  let s := {s with stats := {s.stats with failed := s.stats.failed + 1}}
  if isRecoverableMsg msg ∧ g.attempts < s.config.maxRetries then
    {s with joinQueue := s.joinQueue ++ [{g with attempts := g.attempts + 1}]}
  else s

/-- `processLinks(links)`: keep the valid links, building fresh queue entries. -/
def processLinks (now : Nat) (links : List String) : List GroupEntry :=
  links.filterMap (fun l =>
    if isValidWhatsAppGroupLink l then
      some { link := normalizeLink l, name := extractGroupName l,
             addedAt := now, attempts := 0, status := "queued" }
    else none)

/-- `addToQueue(links)`: drop entries whose link is already in the queue, the
joined set, or the failed map (the pending map is not consulted), append the
rest, return how many were appended. -/
def addToQueue (links : List GroupEntry) (s : JoinerState) : JoinerState × Nat :=
  let newLinks := links.filter (fun l =>
    !(s.joinQueue.any (fun g => g.link = l.link)) &&
    !(setHas s.joinedGroups l.link) &&
    !(mapHas s.failedGroups l.link))
  ({s with joinQueue := s.joinQueue ++ newLinks}, newLinks.length)

/-- Outcome reported by `start`. -/
inductive StartOutcome where
  | alreadyActive
  | noValidLinks
  | started (count : Nat)
deriving DecidableEq, Repr

/-- `start(links, sock)`: refuse when active; validate; refuse when nothing
valid; enqueue; activate and reset the run counters (`startTime`,
`totalAttempted`, `successful`, `failed`, `pending` — nothing else). -/
def start (now : Nat) (links : List String) (s : JoinerState) :
    JoinerState × StartOutcome :=
  if s.isActive then (s, .alreadyActive)
  else
    let processed := processLinks now links
    if processed.isEmpty then (s, .noValidLinks)
    else
      let s1 := (addToQueue processed s).1
      let s2 := { s1 with
        isActive := true,
        stats := { s1.stats with startTime := some now, totalAttempted := 0,
                                 successful := 0, failed := 0, pending := 0 } }
      (s2, .started processed.length)

/-- `loadQueue()`: replace the queue from the parsed file (`parsed.queue || []`,
empty on read/parse failure); the saved stats in the file are ignored. -/
def loadQueue (file : Option (List GroupEntry)) (s : JoinerState) : JoinerState :=
  match file with
  | some q => {s with joinQueue := q}
  | none => {s with joinQueue := []}

/-- `loadJoinedGroups()`: add every stored link to the joined set. -/
def loadJoinedGroups (file : Option (List GroupEntry)) (s : JoinerState) :
    JoinerState :=
  match file with
  | some data =>
    {s with joinedGroups := data.foldl (fun acc g => setAdd acc g.link) s.joinedGroups}
  | none => s

/-- `loadFailedGroups()`: record every stored entry in the failed map. -/
def loadFailedGroups (file : Option (List GroupEntry)) (s : JoinerState) :
    JoinerState :=
  match file with
  | some data =>
    {s with failedGroups := data.foldl (fun acc g => mapSet acc g.link g) s.failedGroups}
  | none => s

/-! ## Pending Monitor -/

/-- The sweep's age test: `now - pendingSince > autoCancelAfter` (false when the
entry carries no `pendingSince`, where the source would compare against an
invalid date). -/
def isPendingExpired (now threshold : Nat) (g : GroupEntry) : Bool :=
  match g.pendingSince with
  | some t => threshold + t < now
  | none => false

/-- One iteration of the sweep's `for` loop over a snapshot entry. -/
def expireOne (now : Nat) (s : JoinerState) (e : String × GroupEntry) :
    JoinerState :=
  if isPendingExpired now s.config.autoCancelAfter e.2 then
    { s with
      failedGroups := mapSet s.failedGroups e.1 (expiredEntry now e.2),
      pendingGroups := mapDelete s.pendingGroups e.1,
      stats := {s.stats with expired := s.stats.expired + 1} }
  else s

/-- `checkPendingGroups()`: sweep the pending map, expiring every entry whose
age exceeds `autoCancelAfter`. -/
def checkPendingGroups (now : Nat) (s : JoinerState) : JoinerState :=
  if s.pendingGroups.isEmpty then s
  else s.pendingGroups.foldl (expireOne now) s

/-- `cancelPending(link)`: move a pending entry (any age) to the failed map with
status `cancelled`; report failure and change nothing when the link is not
pending. -/
def cancelPending (now : Nat) (link : String) (s : JoinerState) :
    JoinerState × Bool :=
  match mapGet s.pendingGroups link with
  | some g =>
    let g := {g with status := "cancelled", cancelledAt := some now}
    ({ s with failedGroups := mapSet s.failedGroups link g,
              pendingGroups := mapDelete s.pendingGroups link }, true)
  | none => (s, false)

/-! ## Retry and report -/

/-- `retryFailedGroups(link?)`: move one failed entry (or all of them) back to
the queue tail with `attempts` reset, and report how many moved. -/
def retryFailedGroups (link : Option String) (s : JoinerState) :
    JoinerState × Nat :=
  match link with
  | some l =>
    match mapGet s.failedGroups l with
    | some g =>
      ({ s with
         joinQueue := s.joinQueue ++ [{g with attempts := 0, status := "queued"}],
         failedGroups := mapDelete s.failedGroups l }, 1)
    | none => (s, 0)
  | none =>
    let moved := (s.failedGroups.map Prod.snd).map
      (fun g => {g with attempts := 0, status := "queued"})
    ({ s with joinQueue := s.joinQueue ++ moved, failedGroups := [] },
     (s.failedGroups.map Prod.snd).length)

/-- `Number.prototype.toFixed(1)`, modelled over exact rationals: round to the
nearest tenth, ties away from zero (all values here are nonnegative). -/
def toFixed1 (q : ℚ) : ℚ := ((q * 10 + 1/2).floor : ℚ) / 10

/-- The fields of the report relevant to the specification. -/
structure JoinReport where
  successRate : ℚ
  queueRemaining : Nat
  statsSnapshot : RunStats
deriving DecidableEq, Repr

/-- `generateReport()`: the `successRate` ternary and the queue count.  The
IEEE-754 division of the source is modelled as exact rational division. -/
def generateReport (s : JoinerState) : JoinReport :=
  { successRate :=
      if s.stats.totalAttempted > 0 then
        toFixed1 ((s.stats.successful : ℚ) / (s.stats.totalAttempted : ℚ) * 100)
      else 0,
    queueRemaining := s.joinQueue.length,
    statsSnapshot := s.stats }

/-! ## Specification-side definitions

These are phrased from the specification's words, to be compared with the
embedded source functions. -/

/-- The deduplication test as the specification words it: the canonical link
already occurs in the queue, the joined set, or the failed map (the pending
map is deliberately absent). -/
def dedupHit (s : JoinerState) (l : String) : Bool :=
  s.joinQueue.any (fun g => g.link = l) || setHas s.joinedGroups l ||
    mapHas s.failedGroups l

/-- Number of the four collections {queue, joined, pending, failed} that a
canonical link belongs to — the specification's single-membership invariant
says this never exceeds 1. -/
def membershipCount (s : JoinerState) (l : String) : Nat :=
  (if s.joinQueue.any (fun g => g.link = l) then 1 else 0)
  + (if setHas s.joinedGroups l then 1 else 0)
  + (if mapHas s.pendingGroups l then 1 else 0)
  + (if mapHas s.failedGroups l then 1 else 0)

/-- The success-rate formula as the specification words it: `0` when
`totalAttempted == 0`, otherwise `successful / totalAttempted * 100` to one
decimal place. -/
def specSuccessRate (st : RunStats) : ℚ :=
  if st.totalAttempted = 0 then 0
  else toFixed1 ((st.successful : ℚ) / (st.totalAttempted : ℚ) * 100)

/-! ## Lemmas about the collection model -/

section CollectionLemmas

variable {β : Type}

theorem setHas_iff_mem {s : List String} {x : String} :
    setHas s x = true ↔ x ∈ s := by
  simp [setHas, List.any_eq_true]

theorem setHas_append_single (s : List String) (x : String) :
    setHas (s ++ [x]) x = true := by
  simp [setHas_iff_mem]

theorem setHas_setAdd_self (s : List String) (x : String) :
    setHas (setAdd s x) x = true := by
  unfold setAdd
  split
  · assumption
  · exact setHas_append_single s x

theorem mapHas_iff {m : List (String × β)} {k : String} :
    mapHas m k = true ↔ ∃ e ∈ m, e.1 = k := by
  simp [mapHas, List.any_eq_true]

theorem mapHas_eq_false_iff {m : List (String × β)} {k : String} :
    mapHas m k = false ↔ ∀ e ∈ m, e.1 ≠ k := by
  rw [← Bool.not_eq_true, mapHas_iff]
  push_neg
  rfl

theorem mapGet_cons {e : String × β} {m : List (String × β)} {k : String} :
    mapGet (e :: m) k = if e.1 = k then some e.2 else mapGet m k := by
  by_cases h : e.1 = k <;> simp [mapGet, List.find?, h]

theorem mapGet_eq_none_of_not_has {m : List (String × β)} {k : String}
    (h : mapHas m k = false) : mapGet m k = none := by
  induction m with
  | nil => rfl
  | cons e m ih =>
    rw [mapHas_eq_false_iff] at h
    rw [mapGet_cons, if_neg (h e (List.mem_cons_self e m))]
    exact ih (mapHas_eq_false_iff.mpr (fun x hx => h x (List.mem_cons_of_mem e hx)))

theorem mapGet_update_self (m : List (String × β)) (k : String) (v : β)
    (h : mapHas m k = true) :
    mapGet (m.map (fun e => if e.1 = k then (k, v) else e)) k = some v := by
  induction m with
  | nil => simp [mapHas] at h
  | cons e m ih =>
    by_cases he : e.1 = k
    · simp [List.map_cons, he, mapGet_cons]
    · rw [List.map_cons, if_neg he, mapGet_cons, if_neg he]
      apply ih
      rw [mapHas_iff] at h ⊢
      rcases h with ⟨x, hx, hxk⟩
      rcases List.mem_cons.mp hx with h1 | h1
      · exact absurd (h1 ▸ hxk) he
      · exact ⟨x, h1, hxk⟩

theorem mapGet_append_single_self (m : List (String × β)) (k : String) (v : β)
    (h : mapHas m k = false) :
    mapGet (m ++ [(k, v)]) k = some v := by
  induction m with
  | nil => simp [mapGet, List.find?]
  | cons e m ih =>
    rw [mapHas_eq_false_iff] at h
    rw [List.cons_append, mapGet_cons, if_neg (h e (List.mem_cons_self e m))]
    exact ih (mapHas_eq_false_iff.mpr (fun x hx => h x (List.mem_cons_of_mem e hx)))

theorem mapGet_set_self (m : List (String × β)) (k : String) (v : β) :
    mapGet (mapSet m k v) k = some v := by
  cases hcase : mapHas m k with
  | true =>
    unfold mapSet
    rw [if_pos hcase]
    exact mapGet_update_self m k v hcase
  | false =>
    unfold mapSet
    rw [if_neg (by simp [hcase])]
    exact mapGet_append_single_self m k v hcase

theorem mapGet_update_other (m : List (String × β)) (k : String) (v : β)
    (l : String) (h : k ≠ l) :
    mapGet (m.map (fun e => if e.1 = k then (k, v) else e)) l = mapGet m l := by
  induction m with
  | nil => rfl
  | cons e m ih =>
    by_cases he : e.1 = k
    · rw [List.map_cons, if_pos he, mapGet_cons, mapGet_cons, if_neg h,
        if_neg (fun hh => h (he.symm.trans hh))]
      exact ih
    · rw [List.map_cons, if_neg he, mapGet_cons, mapGet_cons]
      by_cases hel : e.1 = l
      · rw [if_pos hel, if_pos hel]
      · rw [if_neg hel, if_neg hel]
        exact ih

theorem mapGet_append_single_other (m : List (String × β)) (k : String) (v : β)
    (l : String) (h : k ≠ l) :
    mapGet (m ++ [(k, v)]) l = mapGet m l := by
  induction m with
  | nil => rw [List.nil_append, mapGet_cons, if_neg h]
  | cons e m ih =>
    rw [List.cons_append, mapGet_cons, mapGet_cons]
    by_cases hel : e.1 = l
    · rw [if_pos hel, if_pos hel]
    · rw [if_neg hel, if_neg hel]
      exact ih

theorem mapGet_set_other (m : List (String × β)) (k : String) (v : β)
    (l : String) (h : k ≠ l) : mapGet (mapSet m k v) l = mapGet m l := by
  cases hcase : mapHas m k with
  | true =>
    unfold mapSet
    rw [if_pos hcase]
    exact mapGet_update_other m k v l h
  | false =>
    unfold mapSet
    rw [if_neg (by simp [hcase])]
    exact mapGet_append_single_other m k v l h

theorem mapHas_delete_self (m : List (String × β)) (k : String) :
    mapHas (mapDelete m k) k = false := by
  rw [mapHas_eq_false_iff]
  intro e he
  have := List.of_mem_filter he
  simpa using this

theorem mapGet_delete_self (m : List (String × β)) (k : String) :
    mapGet (mapDelete m k) k = none :=
  mapGet_eq_none_of_not_has (mapHas_delete_self m k)

theorem mapHas_delete_of_false (m : List (String × β)) (k l : String)
    (h : mapHas m l = false) : mapHas (mapDelete m k) l = false := by
  rw [mapHas_eq_false_iff] at h ⊢
  intro e he
  exact h e (List.mem_of_mem_filter he)

end CollectionLemmas

/-! ## Lemmas about the pending sweep -/

theorem expireOne_config (now : Nat) (s : JoinerState) (e : String × GroupEntry) :
    (expireOne now s e).config = s.config := by
  unfold expireOne
  split <;> rfl

theorem foldl_expire_config (now : Nat) (es : List (String × GroupEntry))
    (s : JoinerState) :
    (es.foldl (expireOne now) s).config = s.config := by
  induction es generalizing s with
  | nil => rfl
  | cons e es ih => rw [List.foldl_cons, ih, expireOne_config]

theorem expireOne_expired_count (now : Nat) (s : JoinerState)
    (e : String × GroupEntry) :
    (expireOne now s e).stats.expired =
      s.stats.expired +
        (if isPendingExpired now s.config.autoCancelAfter e.2 then 1 else 0) := by
  unfold expireOne
  split <;> simp_all

theorem foldl_expire_count (now : Nat) (es : List (String × GroupEntry))
    (s : JoinerState) :
    (es.foldl (expireOne now) s).stats.expired =
      s.stats.expired +
        (es.filter (fun e => isPendingExpired now s.config.autoCancelAfter e.2)).length := by
  induction es generalizing s with
  | nil => simp
  | cons e es ih =>
    rw [List.foldl_cons, ih, expireOne_config, expireOne_expired_count,
      List.filter_cons]
    cases h : isPendingExpired now s.config.autoCancelAfter e.2
    · simp
    · simp
      omega

theorem expireOne_failed_other (now : Nat) (s : JoinerState)
    (e : String × GroupEntry) (l : String) (h : e.1 ≠ l) :
    mapGet (expireOne now s e).failedGroups l = mapGet s.failedGroups l := by
  unfold expireOne
  split
  · exact mapGet_set_other _ _ _ _ h
  · rfl

theorem expireOne_pending_false (now : Nat) (s : JoinerState)
    (e : String × GroupEntry) (l : String)
    (h : mapHas s.pendingGroups l = false) :
    mapHas (expireOne now s e).pendingGroups l = false := by
  unfold expireOne
  split
  · exact mapHas_delete_of_false _ _ _ h
  · exact h

theorem foldl_expire_untouched (now : Nat) (es : List (String × GroupEntry))
    (s : JoinerState) (l : String) (hks : ∀ e ∈ es, e.1 ≠ l)
    (hp : mapHas s.pendingGroups l = false) :
    mapGet ((es.foldl (expireOne now) s)).failedGroups l = mapGet s.failedGroups l
    ∧ mapHas ((es.foldl (expireOne now) s)).pendingGroups l = false := by
  induction es generalizing s with
  | nil => exact ⟨rfl, hp⟩
  | cons e es ih =>
    rw [List.foldl_cons]
    have he : e.1 ≠ l := hks e (List.mem_cons_self e es)
    have rest := ih (expireOne now s e) (fun x hx => hks x (List.mem_cons_of_mem e hx))
      (expireOne_pending_false now s e l hp)
    exact ⟨rest.1.trans (expireOne_failed_other now s e l he), rest.2⟩

theorem foldl_expire_member (now : Nat) (es : List (String × GroupEntry))
    (s : JoinerState) (l : String) (g : GroupEntry)
    (hmem : (l, g) ∈ es) (hnodup : (es.map Prod.fst).Nodup)
    (hexp : isPendingExpired now s.config.autoCancelAfter g = true) :
    mapGet ((es.foldl (expireOne now) s)).failedGroups l = some (expiredEntry now g)
    ∧ mapHas ((es.foldl (expireOne now) s)).pendingGroups l = false := by
  induction es generalizing s with
  | nil => cases hmem
  | cons e es ih =>
    rw [List.foldl_cons]
    rcases List.mem_cons.mp hmem with h1 | h1
    · -- the head is the expiring entry; the tail never touches key `l` again
      subst h1
      have hks : ∀ x ∈ es, x.1 ≠ l := by
        intro x hx
        have : l ∉ es.map Prod.fst := (List.nodup_cons.mp hnodup).1
        intro hxl
        exact this (hxl ▸ List.mem_map_of_mem Prod.fst hx)
      have hset : (expireOne now s (l, g)).failedGroups =
          mapSet s.failedGroups l (expiredEntry now g) := by
        unfold expireOne
        rw [if_pos hexp]
      have hdel : (expireOne now s (l, g)).pendingGroups =
          mapDelete s.pendingGroups l := by
        unfold expireOne
        rw [if_pos hexp]
      have rest := foldl_expire_untouched now es (expireOne now s (l, g)) l hks
        (by rw [hdel]; exact mapHas_delete_self _ _)
      refine ⟨rest.1.trans ?_, rest.2⟩
      rw [hset]
      exact mapGet_set_self _ _ _
    · have hexp2 : isPendingExpired now
          ((expireOne now s e).config.autoCancelAfter) g = true := by
        rw [expireOne_config]
        exact hexp
      exact ih (expireOne now s e) h1 (List.Nodup.of_cons hnodup) hexp2

/-! ## Miscellaneous list lemmas -/

theorem drop_len_append {α : Type} (l₁ l₂ : List α) :
    (l₁ ++ l₂).drop l₁.length = l₂ := by
  induction l₁ with
  | nil => rfl
  | cons a l₁ ih => simp [ih]

theorem findInvitePart_eq_find (l : List String) :
    findInvitePart l = l.find? (fun p => 22 ≤ p.length && fullAlnum p.data) := by
  induction l with
  | nil => rfl
  | cons p rest ih =>
    simp only [findInvitePart, List.find?]
    cases h : (decide (22 ≤ p.length) && fullAlnum p.data) with
    | true => simp
    | false => simp [ih]

/-! ## Claim C5 -/

/-- C5: every batch entry whose canonical link already occurs in the queue,
the joined set, or the failed map is rejected by `addToQueue`, membership in
the pending map alone never causes rejection (`dedupHit` does not read it),
and the returned count is exactly the number of entries appended. -/
theorem addToQueue_dedup_c5 (links : List GroupEntry) (s : JoinerState) :
    (addToQueue links s).1.joinQueue =
        s.joinQueue ++ links.filter (fun e => !(dedupHit s e.link))
    ∧ (addToQueue links s).2 + s.joinQueue.length =
        (addToQueue links s).1.joinQueue.length
    ∧ (∀ p l, dedupHit {s with pendingGroups := p} l = dedupHit s l) := by
  refine ⟨?_, ?_, fun p l => rfl⟩
  · show s.joinQueue ++ _ = s.joinQueue ++ _
    congr 1
    apply List.filter_congr
    intro e _
    simp [dedupHit, Bool.not_or, Bool.and_assoc]
  · show (List.filter _ links).length + s.joinQueue.length = (s.joinQueue ++ _).length
    rw [List.length_append]
    omega

/-! ## Claim C6 -/

/-- C6: `retryFailedGroups` with no argument moves every failed entry to the
queue tail with `attempts` reset to 0, empties the failed map, grows the queue
by exactly its previous size and returns that count; with a link present in
the failed map it moves that single entry and returns 1; with an absent link
it returns 0 and changes nothing. -/
theorem retryFailedGroups_c6 (s : JoinerState) (l : String) :
    ((retryFailedGroups none s).1.failedGroups = []
      ∧ (retryFailedGroups none s).1.joinQueue =
          s.joinQueue ++ (s.failedGroups.map Prod.snd).map
            (fun g => {g with attempts := 0, status := "queued"})
      ∧ (retryFailedGroups none s).2 = s.failedGroups.length
      ∧ (retryFailedGroups none s).1.joinQueue.length =
          s.joinQueue.length + s.failedGroups.length
      ∧ ∀ g ∈ (retryFailedGroups none s).1.joinQueue.drop s.joinQueue.length,
          g.attempts = 0)
    ∧ (∀ g, mapGet s.failedGroups l = some g →
        (retryFailedGroups (some l) s).2 = 1
        ∧ (retryFailedGroups (some l) s).1.joinQueue =
            s.joinQueue ++ [{g with attempts := 0, status := "queued"}]
        ∧ (retryFailedGroups (some l) s).1.failedGroups = mapDelete s.failedGroups l)
    ∧ (mapGet s.failedGroups l = none → retryFailedGroups (some l) s = (s, 0)) := by
  refine ⟨⟨rfl, rfl, by simp [retryFailedGroups], by simp [retryFailedGroups], ?_⟩,
    fun g hg => ?_, fun hn => ?_⟩
  · intro g hg
    rw [show (retryFailedGroups none s).1.joinQueue =
        s.joinQueue ++ (s.failedGroups.map Prod.snd).map
          (fun g => {g with attempts := 0, status := "queued"}) from rfl,
      drop_len_append] at hg
    rcases List.mem_map.mp hg with ⟨g0, _, rfl⟩
    rfl
  · refine ⟨?_, ?_, ?_⟩ <;> simp [retryFailedGroups, hg]
  · simp [retryFailedGroups, hn]

/-! ## Claim C7 -/

/-- C7: `cancelPending` on a currently-pending link succeeds regardless of the
entry's age, records it in the failed map with status `cancelled`, and removes
it from the pending map; a second call for the same link — or any call for a
link that is not pending — reports failure and leaves the state unchanged. -/
theorem cancelPending_c7 (now now2 : Nat) (l : String) (s : JoinerState) :
    (∀ g, mapGet s.pendingGroups l = some g →
      (cancelPending now l s).2 = true
      ∧ mapGet (cancelPending now l s).1.failedGroups l =
          some {g with status := "cancelled", cancelledAt := some now}
      ∧ mapHas (cancelPending now l s).1.pendingGroups l = false
      ∧ (cancelPending now l s).1.joinQueue = s.joinQueue
      ∧ (cancelPending now l s).1.joinedGroups = s.joinedGroups
      ∧ cancelPending now2 l (cancelPending now l s).1 =
          ((cancelPending now l s).1, false))
    ∧ (mapGet s.pendingGroups l = none → cancelPending now l s = (s, false)) := by
  constructor
  · intro g hg
    have h1 : cancelPending now l s =
        ({ s with
           failedGroups := mapSet s.failedGroups l
             {g with status := "cancelled", cancelledAt := some now},
           pendingGroups := mapDelete s.pendingGroups l }, true) := by
      unfold cancelPending
      rw [hg]
    rw [h1]
    refine ⟨rfl, mapGet_set_self _ _ _, mapHas_delete_self _ _, rfl, rfl, ?_⟩
    unfold cancelPending
    rw [show mapGet (mapDelete s.pendingGroups l) l = none from
      mapGet_delete_self _ _]
  · intro hn
    unfold cancelPending
    rw [hn]

/-! ## Claim C1 -/

/-- C1 counterexample: a queue entry whose attempt ends in a connector error
containing the recoverable keyword `timeout`, with `attempts = 0` strictly
below `maxRetries = 3`, is nevertheless moved to the failed map and is not
re-enqueued — refuting the claimed retry behaviour at this input. -/
theorem joinLoop_error_retry_c1_counterexample :
    isRecoverableMsg "timeout" = true
    ∧ 0 < ({} : JoinerConfig).maxRetries
    ∧ mapHas (joinLoopStep 0 (ConnectorOutcome.threw "timeout")
        { isActive := true,
          joinQueue := [{ link := "https://chat.whatsapp.com/ABCDEFGHIJKLMNOPQRSTUV" }] }).failedGroups
        "https://chat.whatsapp.com/ABCDEFGHIJKLMNOPQRSTUV" = true
    ∧ (joinLoopStep 0 (ConnectorOutcome.threw "timeout")
        { isActive := true,
          joinQueue := [{ link := "https://chat.whatsapp.com/ABCDEFGHIJKLMNOPQRSTUV" }] }).joinQueue
        = [] := by
  decide

/-- C1 (amended): an error outcome of the join attempt is always moved to the
failed map with its error detail and an incremented attempts count, and the
queue loses only the popped head — recoverability and the retry budget are
never consulted on this path, because `joinGroup` catches connector errors
itself.  The recoverable re-enqueue exists only in the loop's `catch` handler
(`joinLoopCatchStep`), which re-queues at the tail when the error is
recoverable and `attempts < maxRetries` and otherwise drops the entry without
a failed-map record; it increments the failed counter in both cases. -/
theorem joinLoop_error_path_c1 (now : Nat) (s : JoinerState) (g : GroupEntry)
    (rest : List GroupEntry) (m c : String)
    (hact : s.isActive = true)
    (hq : s.joinQueue = g :: rest)
    (hnj : setHas s.joinedGroups g.link = false)
    (hcode : extractInviteCode g.link = some c) :
    (mapGet (joinLoopStep now (ConnectorOutcome.threw m) s).failedGroups g.link =
        some {g with failedAt := some now, error := some m,
                     attempts := g.attempts + 1}
      ∧ (joinLoopStep now (ConnectorOutcome.threw m) s).joinQueue = rest
      ∧ (joinLoopStep now (ConnectorOutcome.threw m) s).stats.failed =
          s.stats.failed + 1)
    ∧ (∀ (g2 : GroupEntry) (m2 : String) (s2 : JoinerState),
        (isRecoverableMsg m2 = true → g2.attempts < s2.config.maxRetries →
          joinLoopCatchStep g2 m2 s2 =
            { s2 with
              stats := {s2.stats with failed := s2.stats.failed + 1},
              joinQueue := s2.joinQueue ++ [{g2 with attempts := g2.attempts + 1}] })
        ∧ (¬(isRecoverableMsg m2 = true ∧ g2.attempts < s2.config.maxRetries) →
          joinLoopCatchStep g2 m2 s2 =
            { s2 with stats := {s2.stats with failed := s2.stats.failed + 1} })) := by
  constructor
  · have hjg : joinGroup g (ConnectorOutcome.threw m) = JoinResult.failure m := by
      unfold joinGroup
      rw [hcode]
    have hstep : joinLoopStep now (ConnectorOutcome.threw m) s =
        bumpAttempt now (handleJoinFailure now g (JoinResult.failure m)
          {s with joinQueue := rest}) := by
      unfold joinLoopStep
      rw [hq]
      simp only [hact, if_true, hnj, Bool.false_eq_true, if_false, hjg]
    rw [hstep]
    refine ⟨?_, rfl, rfl⟩
    show mapGet (mapSet s.failedGroups g.link _) g.link = _
    exact mapGet_set_self _ _ _
  · intro g2 m2 s2
    constructor
    · intro h1 h2
      unfold joinLoopCatchStep
      rw [if_pos ⟨h1, h2⟩]
    · intro h
      unfold joinLoopCatchStep
      rw [if_neg h]

/-- C1 witness: the amended error path evaluated on a concrete recoverable
error, together with a catch-path re-enqueue and a catch-path drop. -/
theorem joinLoop_error_path_c1_witness :
    (joinLoopStep 5 (ConnectorOutcome.threw "timeout")
        { isActive := true,
          joinQueue := [{ link := "https://chat.whatsapp.com/ABCDEFGHIJKLMNOPQRSTUV" }] }).joinQueue
      = []
    ∧ mapGet (joinLoopStep 5 (ConnectorOutcome.threw "timeout")
        { isActive := true,
          joinQueue := [{ link := "https://chat.whatsapp.com/ABCDEFGHIJKLMNOPQRSTUV" }] }).failedGroups
        "https://chat.whatsapp.com/ABCDEFGHIJKLMNOPQRSTUV" =
        some { link := "https://chat.whatsapp.com/ABCDEFGHIJKLMNOPQRSTUV",
               failedAt := some 5, error := some "timeout", attempts := 1 }
    ∧ joinLoopCatchStep { link := "x", attempts := 0 } "timeout"
        ({ joinQueue := [] } : JoinerState) =
        { joinQueue := [{ link := "x", attempts := 1 }],
          stats := { failed := 1 } }
    ∧ joinLoopCatchStep { link := "x", attempts := 0 } "forbidden"
        ({ joinQueue := [] } : JoinerState) =
        ({ stats := { failed := 1 } } : JoinerState) := by
  have h := joinLoop_error_path_c1 5
    { isActive := true,
      joinQueue := [{ link := "https://chat.whatsapp.com/ABCDEFGHIJKLMNOPQRSTUV" }] }
    { link := "https://chat.whatsapp.com/ABCDEFGHIJKLMNOPQRSTUV" } [] "timeout"
    "ABCDEFGHIJKLMNOPQRSTUV" rfl rfl rfl (by decide)
  refine ⟨h.1.2.1, h.1.1, ?_, ?_⟩
  · exact (h.2 { link := "x", attempts := 0 } "timeout" ({ joinQueue := [] } : JoinerState)).1
      (by decide) (by decide)
  · exact (h.2 { link := "x", attempts := 0 } "forbidden" ({ joinQueue := [] } : JoinerState)).2
      (by decide)

/-! ## Claim C2 -/

/-- C2 counterexample: a link whose first attempt ends pending-approval can be
re-submitted through `addToQueue` (which does not deduplicate against the
pending map), reaching a state where the same canonical link is in both the
queue and the pending map — two of the four collections at once. -/
theorem single_membership_c2_counterexample :
    membershipCount
      ((addToQueue
          (processLinks 2 ["https://chat.whatsapp.com/ABCDEFGHIJKLMNOPQRSTUV"])
          (joinLoopStep 1 ConnectorOutcome.noId
            (start 0 ["https://chat.whatsapp.com/ABCDEFGHIJKLMNOPQRSTUV"]
              ({} : JoinerState)).1)).1)
      "https://chat.whatsapp.com/ABCDEFGHIJKLMNOPQRSTUV" = 2 := by
  decide

/-- C2 (amended): immediately after a successful join of the popped head
entry, the link is in the joined set and absent from the pending map, the
queue is exactly the remaining tail, and the failed map is untouched (so the
link stays out of the failed map whenever it was not in it before).  The
four-collection at-most-one invariant itself is not preserved by all
operation sequences, since `addToQueue` admits links that are pending. -/
theorem join_success_membership_c2 (now : Nat) (s : JoinerState) (g : GroupEntry)
    (rest : List GroupEntry) (gid info c : String)
    (hact : s.isActive = true)
    (hq : s.joinQueue = g :: rest)
    (hnj : setHas s.joinedGroups g.link = false)
    (hcode : extractInviteCode g.link = some c) :
    setHas (joinLoopStep now (ConnectorOutcome.ok gid info) s).joinedGroups g.link
      = true
    ∧ mapHas (joinLoopStep now (ConnectorOutcome.ok gid info) s).pendingGroups
        g.link = false
    ∧ (joinLoopStep now (ConnectorOutcome.ok gid info) s).joinQueue = rest
    ∧ (joinLoopStep now (ConnectorOutcome.ok gid info) s).failedGroups =
        s.failedGroups := by
  have hjg : joinGroup g (ConnectorOutcome.ok gid info) =
      JoinResult.success gid info := by
    unfold joinGroup
    rw [hcode]
  have hstep : joinLoopStep now (ConnectorOutcome.ok gid info) s =
      bumpAttempt now (handleJoinSuccess now g gid info {s with joinQueue := rest}) := by
    unfold joinLoopStep
    rw [hq]
    simp only [hact, if_true, hnj, Bool.false_eq_true, if_false, hjg]
  rw [hstep]
  exact ⟨setHas_setAdd_self _ _, mapHas_delete_self _ _, rfl, rfl⟩

/-- C2 witness: the amended post-success membership evaluated on a concrete
one-entry queue. -/
theorem join_success_membership_c2_witness :
    setHas (joinLoopStep 3 (ConnectorOutcome.ok "g1" "info")
        { isActive := true,
          joinQueue := [{ link := "https://chat.whatsapp.com/ABCDEFGHIJKLMNOPQRSTUV" }] }).joinedGroups
      "https://chat.whatsapp.com/ABCDEFGHIJKLMNOPQRSTUV" = true
    ∧ mapHas (joinLoopStep 3 (ConnectorOutcome.ok "g1" "info")
        { isActive := true,
          joinQueue := [{ link := "https://chat.whatsapp.com/ABCDEFGHIJKLMNOPQRSTUV" }] }).pendingGroups
      "https://chat.whatsapp.com/ABCDEFGHIJKLMNOPQRSTUV" = false
    ∧ (joinLoopStep 3 (ConnectorOutcome.ok "g1" "info")
        { isActive := true,
          joinQueue := [{ link := "https://chat.whatsapp.com/ABCDEFGHIJKLMNOPQRSTUV" }] }).failedGroups
      = [] := by
  have h := join_success_membership_c2 3
    { isActive := true,
      joinQueue := [{ link := "https://chat.whatsapp.com/ABCDEFGHIJKLMNOPQRSTUV" }] }
    { link := "https://chat.whatsapp.com/ABCDEFGHIJKLMNOPQRSTUV" } [] "g1" "info"
    "ABCDEFGHIJKLMNOPQRSTUV" rfl rfl rfl (by decide)
  exact ⟨h.1, h.2.1, h.2.2.2⟩

/-! ## Claim C3 -/

/-- C3 counterexample: a successful `start` call on an inactive engine leaves
`stats.expired`, `stats.endTime` and `stats.lastJoin` exactly as they were —
refuting the claim that every `RunStats` field is reset. -/
theorem stats_reset_c3_counterexample :
    (start 10 ["https://chat.whatsapp.com/ABCDEFGHIJKLMNOPQRSTUV"]
        { stats := { expired := 5, endTime := some 9, lastJoin := some 7 } }).2 =
      StartOutcome.started 1
    ∧ (start 10 ["https://chat.whatsapp.com/ABCDEFGHIJKLMNOPQRSTUV"]
        { stats := { expired := 5, endTime := some 9, lastJoin := some 7 } }).1.stats.expired
      = 5
    ∧ (start 10 ["https://chat.whatsapp.com/ABCDEFGHIJKLMNOPQRSTUV"]
        { stats := { expired := 5, endTime := some 9, lastJoin := some 7 } }).1.stats.endTime
      = some 9
    ∧ (start 10 ["https://chat.whatsapp.com/ABCDEFGHIJKLMNOPQRSTUV"]
        { stats := { expired := 5, endTime := some 9, lastJoin := some 7 } }).1.stats.lastJoin
      = some 7 := by
  decide

/-- C3 (amended): an accepted `start` call resets `totalAttempted`,
`successful`, `failed` and `pending` to 0 and sets `startTime`, leaving
`expired`, `endTime` and `lastJoin` unchanged; loading any persisted queue,
joined or failed data leaves `RunStats` entirely unchanged. -/
theorem start_stats_reset_c3 (now : Nat) (links : List String) (s : JoinerState)
    (hact : s.isActive = false)
    (hsome : processLinks now links ≠ []) :
    (start now links s).1.stats =
      { s.stats with startTime := some now, totalAttempted := 0,
                     successful := 0, failed := 0, pending := 0 }
    ∧ (∀ f, (loadQueue f s).stats = s.stats)
    ∧ (∀ f, (loadJoinedGroups f s).stats = s.stats)
    ∧ (∀ f, (loadFailedGroups f s).stats = s.stats) := by
  refine ⟨?_, fun f => by cases f <;> rfl, fun f => by cases f <;> rfl,
    fun f => by cases f <;> rfl⟩
  have hne : (processLinks now links).isEmpty = false := by
    cases hp : processLinks now links with
    | nil => exact absurd hp hsome
    | cons a rest => rfl
  unfold start
  rw [if_neg (by simp [hact]), if_neg (by simp [hne])]
  rfl

/-- C3 witness: a concrete inactive state with a stale `expired` counter,
started on one valid link. -/
theorem start_stats_reset_c3_witness :
    (start 0 ["https://chat.whatsapp.com/ABCDEFGHIJKLMNOPQRSTUV"]
        ({ stats := { expired := 2 } } : JoinerState)).1.stats =
      { startTime := some 0, expired := 2 }
    ∧ (loadQueue (some []) ({ stats := { expired := 2 } } : JoinerState)).stats =
      { expired := 2 } := by
  have h := start_stats_reset_c3 0
    ["https://chat.whatsapp.com/ABCDEFGHIJKLMNOPQRSTUV"]
    ({ stats := { expired := 2 } } : JoinerState) rfl (by decide)
  exact ⟨h.1, h.2.1 (some [])⟩

/-! ## Claim C4 -/

/-- C4: one sweep of the Pending Monitor moves every pending entry whose age
`now - pendingSince` exceeds `autoCancelAfter` (24h by default) to the failed
map with status `expired` and the fixed error text, removes it from the
pending map, and increments `stats.expired` by exactly the number of entries
expired in that sweep; a second sweep leaves the already-expired entry
untouched. -/
theorem checkPendingGroups_c4 (now now2 : Nat) (l : String) (g : GroupEntry)
    (t : Nat) (s : JoinerState)
    (hmem : (l, g) ∈ s.pendingGroups)
    (hnodup : (s.pendingGroups.map Prod.fst).Nodup)
    (hsince : g.pendingSince = some t)
    (hage : s.config.autoCancelAfter + t < now) :
    mapGet (checkPendingGroups now s).failedGroups l = some (expiredEntry now g)
    ∧ mapHas (checkPendingGroups now s).pendingGroups l = false
    ∧ (checkPendingGroups now s).stats.expired =
        s.stats.expired + (s.pendingGroups.filter
          (fun e => isPendingExpired now s.config.autoCancelAfter e.2)).length
    ∧ mapGet (checkPendingGroups now2 (checkPendingGroups now s)).failedGroups l =
        mapGet (checkPendingGroups now s).failedGroups l
    ∧ mapHas (checkPendingGroups now2 (checkPendingGroups now s)).pendingGroups l
        = false
    ∧ ({} : JoinerConfig).autoCancelAfter = 24 * 60 * 60 * 1000 := by
  have hexp : isPendingExpired now s.config.autoCancelAfter g = true := by
    unfold isPendingExpired
    rw [hsince]
    simpa using hage
  have hne : s.pendingGroups.isEmpty = false := by
    cases hq : s.pendingGroups with
    | nil => rw [hq] at hmem; cases hmem
    | cons a rest => rfl
  have hfold : checkPendingGroups now s = s.pendingGroups.foldl (expireOne now) s := by
    unfold checkPendingGroups
    rw [if_neg (by simp [hne])]
  have hmain := foldl_expire_member now s.pendingGroups s l g hmem hnodup hexp
  have hsecond : ∀ s1 : JoinerState, mapHas s1.pendingGroups l = false →
      mapGet (checkPendingGroups now2 s1).failedGroups l = mapGet s1.failedGroups l
      ∧ mapHas (checkPendingGroups now2 s1).pendingGroups l = false := by
    intro s1 hh
    unfold checkPendingGroups
    by_cases hemp : s1.pendingGroups.isEmpty = true
    · rw [if_pos hemp]
      exact ⟨rfl, hh⟩
    · rw [if_neg hemp]
      exact foldl_expire_untouched now2 s1.pendingGroups s1 l
        (mapHas_eq_false_iff.mp hh) hh
  rw [hfold] at *
  exact ⟨hmain.1, hmain.2, foldl_expire_count now s.pendingGroups s,
    (hsecond _ hmain.2).1, (hsecond _ hmain.2).2, rfl⟩

/-- C4 witness: a sweep at 25h over one stale and one fresh pending entry
expires exactly the stale one. -/
theorem checkPendingGroups_c4_witness :
    mapGet (checkPendingGroups 90000000
        { pendingGroups := [("a", { link := "a", pendingSince := some 0 }),
                            ("b", { link := "b", pendingSince := some 80000000 })] }).failedGroups
      "a" = some (expiredEntry 90000000 { link := "a", pendingSince := some 0 })
    ∧ mapHas (checkPendingGroups 90000000
        { pendingGroups := [("a", { link := "a", pendingSince := some 0 }),
                            ("b", { link := "b", pendingSince := some 80000000 })] }).pendingGroups
      "a" = false
    ∧ (checkPendingGroups 90000000
        { pendingGroups := [("a", { link := "a", pendingSince := some 0 }),
                            ("b", { link := "b", pendingSince := some 80000000 })] }).stats.expired
      = 1 := by
  have h := checkPendingGroups_c4 90000000 90000001 "a"
    { link := "a", pendingSince := some 0 } 0
    { pendingGroups := [("a", { link := "a", pendingSince := some 0 }),
                        ("b", { link := "b", pendingSince := some 80000000 })] }
    (by decide) (by decide) rfl (by decide)
  refine ⟨h.1, h.2.1, ?_⟩
  rw [h.2.2.1]
  decide

/-- C6 witness: concrete no-argument, present-link and absent-link calls. -/
theorem retryFailedGroups_c6_witness :
    ((retryFailedGroups none
        ({ failedGroups := [("x", { link := "x", attempts := 2, status := "failed" })] }
          : JoinerState)).1.failedGroups = []
      ∧ (retryFailedGroups none
          ({ failedGroups := [("x", { link := "x", attempts := 2, status := "failed" })] }
            : JoinerState)).2 = 1)
    ∧ (retryFailedGroups (some "x")
        ({ failedGroups := [("x", { link := "x", attempts := 2, status := "failed" })] }
          : JoinerState)).1.joinQueue =
        [{ link := "x", attempts := 0, status := "queued" }]
    ∧ retryFailedGroups (some "y")
        ({ failedGroups := [("x", { link := "x", attempts := 2, status := "failed" })] }
          : JoinerState) =
        (({ failedGroups := [("x", { link := "x", attempts := 2, status := "failed" })] }
          : JoinerState), 0) := by
  have h := retryFailedGroups_c6
    ({ failedGroups := [("x", { link := "x", attempts := 2, status := "failed" })] }
      : JoinerState) "x"
  have h2 := retryFailedGroups_c6
    ({ failedGroups := [("x", { link := "x", attempts := 2, status := "failed" })] }
      : JoinerState) "y"
  refine ⟨⟨h.1.1, h.1.2.2.1⟩, ?_, h2.2.2 rfl⟩
  have h3 := (h.2.1 { link := "x", attempts := 2, status := "failed" } rfl).2.1
  rw [h3]
  rfl

/-- C7 witness: cancelling a concrete pending link succeeds and the repeat
call fails with the state unchanged. -/
theorem cancelPending_c7_witness :
    (cancelPending 4 "p"
        ({ pendingGroups := [("p", { link := "p", pendingSince := some 1 })] }
          : JoinerState)).2 = true
    ∧ mapGet (cancelPending 4 "p"
        ({ pendingGroups := [("p", { link := "p", pendingSince := some 1 })] }
          : JoinerState)).1.failedGroups "p" =
        some { link := "p", pendingSince := some 1, status := "cancelled",
               cancelledAt := some 4 }
    ∧ cancelPending 8 "p" (cancelPending 4 "p"
        ({ pendingGroups := [("p", { link := "p", pendingSince := some 1 })] }
          : JoinerState)).1 =
        ((cancelPending 4 "p"
          ({ pendingGroups := [("p", { link := "p", pendingSince := some 1 })] }
            : JoinerState)).1, false) := by
  have h := (cancelPending_c7 4 8 "p"
    ({ pendingGroups := [("p", { link := "p", pendingSince := some 1 })] }
      : JoinerState)).1 { link := "p", pendingSince := some 1 } rfl
  exact ⟨h.1, h.2.1, h.2.2.2.2.2⟩

/-! ## Claim C8 -/

/-- C8: `extractInviteCode` returns exactly the first `/`-separated segment of
the parsed URL path whose length is at least 22 and which is fully
alphanumeric, and returns `none` — rather than failing — when no such segment
exists or the URL cannot be parsed. -/
theorem extractInviteCode_c8 (link : String) :
    extractInviteCode link =
      (urlPathname link).bind
        (fun path => (splitOnSlash path.data).find?
          (fun p => 22 ≤ p.length && fullAlnum p.data))
    ∧ (urlPathname link = none → extractInviteCode link = none) := by
  constructor
  · unfold extractInviteCode
    cases h : urlPathname link
    · rfl
    · simp [findInvitePart_eq_find]
  · intro h
    unfold extractInviteCode
    rw [h]

/-- C8 witness: a link the URL model cannot parse evaluates to `none`. -/
theorem extractInviteCode_c8_witness : extractInviteCode "not a url" = none :=
  (extractInviteCode_c8 "not a url").2 rfl

/-! ## Claim C9 -/

/-- C9: the report's `successRate` is `0` when `totalAttempted` is zero and
otherwise `successful / totalAttempted * 100` to one decimal place, i.e. it
agrees with `specSuccessRate` on every stats record. -/
theorem generateReport_successRate_c9 (s : JoinerState) :
    (generateReport s).successRate = specSuccessRate s.stats
    ∧ (s.stats.totalAttempted = 0 → (generateReport s).successRate = 0) := by
  constructor
  · unfold generateReport specSuccessRate
    by_cases h : s.stats.totalAttempted = 0
    · simp [h]
    · simp [h, Nat.pos_of_ne_zero h]
  · intro h
    simp [generateReport, h]

/-- C9 witness: a fresh state has attempted nothing and reports a zero rate. -/
theorem generateReport_successRate_c9_witness :
    (generateReport ({} : JoinerState)).successRate = 0 :=
  (generateReport_successRate_c9 {}).2 rfl

/-! ## Claim C10 -/

/-- C10: there is a raw link that `isValidWhatsAppGroupLink` accepts (its
22-character code contains `_` and `-`, matching the validator's second
pattern) on which `extractInviteCode` returns `none`, so `joinGroup` fails
with `Invalid group link format` whatever the connector would have done. -/
theorem validator_extractor_gap_c10 :
    ∃ link : String,
      isValidWhatsAppGroupLink link = true
      ∧ extractInviteCode link = none
      ∧ ∀ conn, joinGroup { link := link } conn =
          JoinResult.failure "Invalid group link format" := by
  refine ⟨"https://chat.whatsapp.com/ABCDEFGHIJ1234567890_-", by decide, by decide, ?_⟩
  intro conn
  have h : extractInviteCode "https://chat.whatsapp.com/ABCDEFGHIJ1234567890_-"
      = none := by decide
  simp [joinGroup, h]

end GroupJoiner
